import Mathlib

/-!
Shallow embedding of the terrawrap repository's core:
`terrawrap/utils/cli.py` (the resilient command execution engine:
`execute_command`, `_get_retriable_errors`, `_post_to_audit_api_url`)
and `terrawrap/models/wrapper_config.py` (`env_var_deserializer`).

External collaborators are abstracted as parameters:
the Process Runner (`subprocess.Popen` plus the byte-draining loop of
`_execute_command`) is an oracle `runner` mapping the spawned environment and
the attempt index to that attempt's (exit code, output lines);
`Jitter.backoff` (from `amplify_aws_utils`) is an oracle `backoff` mapping the
call index to the cumulative wait time it returns;
`get_git_root` and `getpass.getuser` are parameters;
`requests.post` is modelled by a `post_fails` flag saying whether it raises a
`requests.exceptions.RequestException`.
-/

/-- Python truthiness of an optional string value: `None` and `""` are falsy,
any other string is truthy. -/
def optTruthy : Option String → Bool
  | none => false
  | some s => !(s == "")

/-- cli.py line 19: `MAX_RETRIES = 5`. -/
def MAX_RETRIES : Nat := 5

/-- cli.py lines 20-38: the transient-error catalog. -/
def RETRIABLE_ERRORS : List String := [
  "RequestError: send request failed",
  "unexpected EOF",
  "Throttling",
  "timeout while waiting for state",
  "ServiceUnavailable: Service Unavailable",
  "failed to decode query XML error response",
  "connection reset",
  "Connection reset",
  "Please try again.",
  "Client.Timeout exceeded",
  "Request limit for operation",
  "try again later",
  "handshake timeout",
  "SSL_ERROR_SYSCALL",
  "ConditionalCheckFailedException",
  "Api Rate Limit Exceeded",
  "TooManyUpdates"]

/-- The Python substring operator `pat in s` on strings: case-sensitive,
true iff `pat` occurs contiguously somewhere in `s` (an empty `pat` is in
every string). -/
def strIn (pat s : String) : Bool :=
  (List.range (s.data.length + 1)).any fun i => pat.data.isPrefixOf (s.data.drop i)

/-- cli.py lines 163-168, `_get_retriable_errors`:
filter line output for retriable errors
(`[line for line in out if any(error in line for error in RETRIABLE_ERRORS)]`). -/
def _get_retriable_errors (out : List String) : List String :=
  out.filter fun line => RETRIABLE_ERRORS.any fun error => strIn error line

/-- The result of one subprocess run, as returned by `_execute_command`:
the child's exit code and its captured output lines. -/
structure Attempt where
  exitCode : Int
  stdout : List String
deriving Repr, DecidableEq

/-- The `env` keyword argument of Popen: an ordered mapping from variable
names to values, where a value may be `None`. -/
abbrev EnvMap := List (String × Option String)

/-- cli.py lines 67-73: if `env` is among the kwargs, replace it by
`{key: value for key, value in kwargs[,env,].items() if value is not None}`;
otherwise leave the kwargs untouched. -/
def filtered_env : Option EnvMap → Option EnvMap
  | none => none
  | some env => some (env.filter fun kv => kv.2.isSome)

/-- Outcome of the while-loop of `execute_command` (cli.py lines 79-101):
either the loop finishes and falls through to the code after it carrying a
final exit code and output, or the `raise TimeoutError` on line 99 fires.
Both record how many times `_execute_command` spawned a child process. -/
inductive LoopResult where
  | finished (exit_code : Int) (stdout : List String) (spawns : Nat)
  | timedOut (spawns : Nat)
deriving Repr, DecidableEq

/-- Number of child-process spawns performed by a loop run. -/
def loopSpawns : LoopResult → Nat
  | .finished _ _ n => n
  | .timedOut n => n

/-- cli.py line 79: the loop condition
`while try_count < MAX_RETRIES if retry else 1` (a Python conditional
expression: when `retry` is false the condition is the truthy constant `1`). -/
def while_cond (retry : Bool) (try_count : Nat) : Bool :=
  if retry then decide (try_count < MAX_RETRIES) else true

/-- cli.py lines 79-101: the retry loop of `execute_command`.

One iteration: run `_execute_command` (the attempt oracle), increment
`try_count`, classify the output with `_get_retriable_errors`; if
`exit_code != 0 and network_errors and retry` the loop continues (line 92),
otherwise it breaks (line 96); before retrying, `raise TimeoutError` if
`time_passed >= timeout` (lines 98-99), else `time_passed = jitter.backoff()`
(line 101, the cumulative wait returned by the Jitter collaborator, modelled
by the oracle `backoff` indexed by the backoff-call number). -/
def retry_loop (retry : Bool) (timeout : Nat) (attempt : Nat → Attempt)
    (backoff : Nat → Nat) (try_count time_passed : Nat)
    (exit_code : Int) (stdout : List String) : LoopResult :=
  if hw : while_cond retry try_count then
    let a := attempt try_count
    let network_errors := _get_retriable_errors a.stdout
    if hr : (a.exitCode != 0 && !network_errors.isEmpty && retry) then
      if time_passed ≥ timeout then
        LoopResult.timedOut (try_count + 1)
      else
        retry_loop retry timeout attempt backoff (try_count + 1) (backoff try_count)
          a.exitCode a.stdout
    else
      LoopResult.finished a.exitCode a.stdout (try_count + 1)
  else
    LoopResult.finished exit_code stdout try_count
termination_by MAX_RETRIES - try_count
decreasing_by
  have hretry : retry = true := by
    cases retry
    · simp at hr
    · rfl
  rw [hretry] at hw
  simp only [while_cond, if_true, decide_eq_true_eq] at hw
  simp only [MAX_RETRIES] at hw ⊢
  omega

/-- The value of the loop's `time_passed` variable at the start of iteration
`i` of the retry loop (started from the initial state): `0` before the first
iteration, and afterwards the cumulative wait returned by the `i`-th call of
`jitter.backoff()` (0-indexed: iteration `i` performs backoff call `i`). -/
def time_passed_at (backoff : Nat → Nat) : Nat → Nat
  | 0 => 0
  | i + 1 => backoff i

/-- The JSON body of the audit POST issued by `_post_to_audit_api_url`
(cli.py lines 180-186): a dict with exactly the keys `directory`, `status`,
`run_by` and `output`. -/
structure AuditRecord where
  directory : String
  status : String
  run_by : String
  output : List String
deriving Repr, DecidableEq

/-- Worker for `py_replace_empty`: scan left to right; whenever (a non-empty)
`pat` starts at the current position, skip it and continue after it,
otherwise copy one character. `fuel` only bounds the recursion; one character
at least is consumed per step, so `fuel = length of the scanned list` always
suffices and the fuel-exhausted branch is unreachable from `py_replace_empty`. -/
def pyRemoveGo (pat : List Char) : Nat → List Char → List Char
  | 0, s => s
  | _ + 1, [] => []
  | fuel + 1, c :: rest =>
    if !pat.isEmpty && pat.isPrefixOf (c :: rest) then
      pyRemoveGo pat fuel ((c :: rest).drop pat.length)
    else
      c :: pyRemoveGo pat fuel rest

/-- Python `s.replace(pat, ,,)` with an empty replacement string, as used on
cli.py line 173 (`path = path.replace(root, ,,)`): every occurrence of `pat`
in `s` is removed, scanning left to right, non-overlapping; an empty `pat`
leaves `s` unchanged. -/
def py_replace_empty (s pat : String) : String :=
  String.mk (pyRemoveGo pat.data s.data.length s.data)

/-- cli.py lines 171-190, `_post_to_audit_api_url`: compute the git root of
`path` (collaborator `get_git_root`), strip it from `path` with
`path.replace(root, ,,)`, derive the status from the exit code, take the OS
user from `getpass.getuser()` (collaborator `getuser`), and issue exactly one
`requests.post` whose JSON body is the returned `AuditRecord`. The POST may
raise a `requests.exceptions.RequestException` (`post_fails = true`); the
`except` clause catches it and only logs, so the function returns either way. -/
def _post_to_audit_api_url (audit_api_url : String) (path : String) (exit_code : Int)
    (stdout : List String) (get_git_root : String → String) (getuser : String)
    (post_fails : Bool) : AuditRecord :=
  let root := get_git_root path
  let path := py_replace_empty path root
  let status := if exit_code == 0 then "SUCCESS" else "FAILED"
  let user := getuser
  let record : AuditRecord :=
    { directory := path, status := status, run_by := user, output := stdout }
  let _unused := audit_api_url
  match (if post_fails then Except.error () else Except.ok record : Except Unit AuditRecord) with
  | Except.ok r => r
  | Except.error _ => record

/-- Observable outcome of one call of `execute_command`: a normal return of
the `(exit_code, stdout)` pair (with the audit record that was POSTed, if
any), the `TimeoutError` raised on cli.py line 99, or the `KeyError` raised
by `kwargs[,cwd,]` on line 103 when the `cwd` keyword argument was never
supplied. Each outcome records the number of child-process spawns. -/
inductive ExecOutcome where
  | result (exit_code : Int) (stdout : List String) (posted : Option AuditRecord) (spawns : Nat)
  | timeoutError (spawns : Nat)
  | keyError (spawns : Nat)
deriving Repr, DecidableEq

/-- Number of child-process spawns of an `execute_command` outcome. -/
def spawnsOf : ExecOutcome → Nat
  | .result _ _ _ n => n
  | .timeoutError n => n
  | .keyError n => n

/-- Whether the outcome is an exception escaping `execute_command` rather
than a returned `(exit_code, stdout)` pair. -/
def raises : ExecOutcome → Bool
  | .result _ _ _ _ => false
  | .timeoutError _ => true
  | .keyError _ => true

/-- cli.py lines 40-106, `execute_command`: filter `None`-valued entries out
of the `env` kwarg once, before the loop (lines 67-73); run the retry loop
(lines 79-101) with `try_count = 0`, `time_passed = 0`, `exit_code = 0`,
`stdout = []`; after the loop, `if audit_api_url and kwargs[,cwd,]` call
`_post_to_audit_api_url` (lines 103-104; `kwargs[,cwd,]` raises `KeyError`
when the `cwd` key is absent, and Python's `and` short-circuits so this is
only evaluated when `audit_api_url` is truthy); finally return
`(exit_code, stdout)`. `cwd = none` models an absent `cwd` keyword,
`cwd = some v` a supplied one with value `v` (`v = none` is `cwd=None`). -/
def execute_command (retry : Bool) (timeout : Nat) (audit_api_url : Option String)
    (env : Option EnvMap) (cwd : Option (Option String))
    (runner : Option EnvMap → Nat → Attempt) (backoff : Nat → Nat)
    (get_git_root : String → String) (getuser : String) (post_fails : Bool) : ExecOutcome :=
  let kwargs_env := filtered_env env
  match retry_loop retry timeout (fun i => runner kwargs_env i) backoff 0 0 0 [] with
  | .timedOut n => ExecOutcome.timeoutError n
  | .finished exit_code stdout n =>
    if optTruthy audit_api_url then
      match cwd with
      | none => ExecOutcome.keyError n
      | some c =>
        if optTruthy c then
          ExecOutcome.result exit_code stdout
            (some (_post_to_audit_api_url (audit_api_url.getD "") (c.getD "") exit_code stdout
              get_git_root getuser post_fails)) n
        else
          ExecOutcome.result exit_code stdout none n
    else
      ExecOutcome.result exit_code stdout none n

/-- Statement of the spec's description of the audit `directory` field,
written from the spec's words for comparison with the code's
`py_replace_empty`: remove the git-root *as a leading piece* of the working
directory and keep the rest of the path unchanged. -/
def spec_directory_label (path root : String) : String :=
  if root.data.isPrefixOf path.data then String.mk (path.data.drop root.data.length)
  else path

/-- wrapper_config.py lines 11-14, `EnvVarSource` enum. -/
inductive EnvVarSource where
  | SSM | TEXT | UNSET
deriving Repr, DecidableEq

/-- The `.value` of an `EnvVarSource` member. -/
def EnvVarSource.value : EnvVarSource → String
  | .SSM => "ssm"
  | .TEXT => "text"
  | .UNSET => "unset"

/-- wrapper_config.py lines 17-36: the `AbstractEnvVarConfig` subclasses,
as a sum; `SSMEnvVarConfig` carries `path`, `TextEnvVarConfig` carries
`value`, `UnsetEnvVarConfig` carries nothing. -/
inductive AbstractEnvVarConfig where
  | SSMEnvVarConfig (path : String)
  | TextEnvVarConfig (value : String)
  | UnsetEnvVarConfig
deriving Repr, DecidableEq

/-- The input dictionary of `env_var_deserializer`, restricted to the keys
the function reads; `none` models an absent key. -/
structure EnvVarDict where
  source : Option String
  path : Option String
  value : Option String

/-- A Python exception raised by `env_var_deserializer`: a `KeyError` from a
`obj_dict[...]` access on a missing key, or the explicit
`RuntimeError(,Invalid Source,)`. -/
inductive PyError where
  | keyError (key : String)
  | runtimeError (msg : String)
deriving Repr, DecidableEq

/-- The retry condition of cli.py line 92,
`if exit_code != 0 and network_errors and retry`, as a function of the
attempt result (a non-empty Python list is truthy). -/
def retriable_cond (retry : Bool) (a : Attempt) : Bool :=
  a.exitCode != 0 && !(_get_retriable_errors a.stdout).isEmpty && retry

/-- wrapper_config.py lines 97-106, `env_var_deserializer`: convert a dict to
a subclass of `AbstractEnvVarConfig` by comparing `obj_dict[,source,]` with
the `.value` of each `EnvVarSource` member in order (ssm, text, unset), and
`raise RuntimeError(,Invalid Source,)` when none matches. -/
def env_var_deserializer (obj_dict : EnvVarDict) : Except PyError AbstractEnvVarConfig :=
  match obj_dict.source with
  | none => Except.error (.keyError "source")
  | some src =>
    if src == EnvVarSource.SSM.value then
      match obj_dict.path with
      | none => Except.error (.keyError "path")
      | some p => Except.ok (.SSMEnvVarConfig p)
    else if src == EnvVarSource.TEXT.value then
      match obj_dict.value with
      | none => Except.error (.keyError "value")
      | some v => Except.ok (.TextEnvVarConfig v)
    else if src == EnvVarSource.UNSET.value then
      Except.ok .UnsetEnvVarConfig
    else
      Except.error (.runtimeError "Invalid Source")

/-! ### Helper lemmas about the retry loop -/

/-- Unfolding: when the while condition is false the loop returns the carried
exit code and output without spawning. -/
theorem retry_loop_exit (retry : Bool) (timeout : Nat) (attempt : Nat → Attempt)
    (backoff : Nat → Nat) (t tp : Nat) (ec : Int) (sd : List String)
    (hw : while_cond retry t = false) :
    retry_loop retry timeout attempt backoff t tp ec sd = LoopResult.finished ec sd t := by
  rw [retry_loop]
  simp [hw]

/-- Unfolding: when the attempt does not satisfy the retry condition the loop
breaks, returning that attempt's exit code and output. -/
theorem retry_loop_break (retry : Bool) (timeout : Nat) (attempt : Nat → Attempt)
    (backoff : Nat → Nat) (t tp : Nat) (ec : Int) (sd : List String)
    (hw : while_cond retry t = true)
    (hr : retriable_cond retry (attempt t) = false) :
    retry_loop retry timeout attempt backoff t tp ec sd =
      LoopResult.finished (attempt t).exitCode (attempt t).stdout (t + 1) := by
  rw [retry_loop]
  rw [retriable_cond] at hr
  simp [hw, hr]

/-- Unfolding: when the attempt satisfies the retry condition but the
cumulative wait has reached the timeout, the loop raises `TimeoutError`. -/
theorem retry_loop_timeout (retry : Bool) (timeout : Nat) (attempt : Nat → Attempt)
    (backoff : Nat → Nat) (t tp : Nat) (ec : Int) (sd : List String)
    (hw : while_cond retry t = true)
    (hr : retriable_cond retry (attempt t) = true)
    (ht : timeout ≤ tp) :
    retry_loop retry timeout attempt backoff t tp ec sd = LoopResult.timedOut (t + 1) := by
  rw [retry_loop]
  rw [retriable_cond] at hr
  simp [hw, hr, ht]

/-- Unfolding: when the attempt satisfies the retry condition and the timeout
has not been hit, the loop performs one backoff and continues. -/
theorem retry_loop_retry (retry : Bool) (timeout : Nat) (attempt : Nat → Attempt)
    (backoff : Nat → Nat) (t tp : Nat) (ec : Int) (sd : List String)
    (hw : while_cond retry t = true)
    (hr : retriable_cond retry (attempt t) = true)
    (ht : tp < timeout) :
    retry_loop retry timeout attempt backoff t tp ec sd =
      retry_loop retry timeout attempt backoff (t + 1) (backoff t)
        (attempt t).exitCode (attempt t).stdout := by
  rw [retry_loop]
  rw [retriable_cond] at hr
  simp [hw, hr, Nat.not_le.mpr ht]

/-- The retry condition is never satisfied when retry is disabled. -/
theorem retriable_cond_false (a : Attempt) : retriable_cond false a = false := by
  simp [retriable_cond]

/-- With retry enabled, the retry condition holds iff the exit code is
non-zero and some output line contains a catalog phrase. -/
theorem retriable_cond_true_iff (a : Attempt) :
    retriable_cond true a = true ↔
      (a.exitCode ≠ 0 ∧ _get_retriable_errors a.stdout ≠ []) := by
  simp [retriable_cond, List.isEmpty_iff]

/-- With retry disabled, the loop always runs exactly one attempt and returns
its exit code and output (the while condition is the truthy constant `1` and
the `break` on line 96 always fires). -/
theorem retry_loop_no_retry (timeout : Nat) (attempt : Nat → Attempt)
    (backoff : Nat → Nat) (t tp : Nat) (ec : Int) (sd : List String) :
    retry_loop false timeout attempt backoff t tp ec sd =
      LoopResult.finished (attempt t).exitCode (attempt t).stdout (t + 1) :=
  retry_loop_break false timeout attempt backoff t tp ec sd (by simp [while_cond])
    (retriable_cond_false _)

/-- Spawn-count bounds for the loop with retry enabled, at any state with
`t + k = MAX_RETRIES`: at least `t` spawns are reported, at most
`MAX_RETRIES`, and at least one attempt runs whenever `t < MAX_RETRIES`. -/
theorem loop_spawns_bounds (timeout : Nat) (attempt : Nat → Attempt)
    (backoff : Nat → Nat) (k : Nat) :
    ∀ t tp ec sd, t + k = MAX_RETRIES →
      t ≤ loopSpawns (retry_loop true timeout attempt backoff t tp ec sd) ∧
      loopSpawns (retry_loop true timeout attempt backoff t tp ec sd) ≤ MAX_RETRIES ∧
      (t < MAX_RETRIES →
        t + 1 ≤ loopSpawns (retry_loop true timeout attempt backoff t tp ec sd)) := by
  induction k with
  | zero =>
    intro t tp ec sd hk
    have ht : t = MAX_RETRIES := by omega
    subst ht
    rw [retry_loop_exit _ _ _ _ _ _ _ _ (by simp [while_cond])]
    simp [loopSpawns]
  | succ k ih =>
    intro t tp ec sd hk
    have hw : while_cond true t = true := by
      simp only [while_cond, if_true, decide_eq_true_eq]
      omega
    cases hr : retriable_cond true (attempt t) with
    | false =>
      rw [retry_loop_break _ _ _ _ _ _ _ _ hw hr]
      simp only [loopSpawns]
      omega
    | true =>
      rcases Nat.lt_or_ge tp timeout with hlt | hge
      · rw [retry_loop_retry _ _ _ _ _ _ _ _ hw hr hlt]
        have := ih (t + 1) (backoff t) (attempt t).exitCode (attempt t).stdout (by omega)
        omega
      · rw [retry_loop_timeout _ _ _ _ _ _ _ _ hw hr hge]
        simp only [loopSpawns]
        omega

/-- Trace characterization with retry enabled: started at a state with
`t + k = MAX_RETRIES` and the invariant `time_passed = time_passed_at t`,
for every attempt `i` that the loop runs, a further attempt `i + 1` is run
iff attempt `i` exited non-zero with a catalog phrase in its output, fewer
than `MAX_RETRIES` attempts have occurred, and the cumulative backoff wait
at the timeout check after attempt `i` was still below the timeout. -/
theorem loop_retry_iff (timeout : Nat) (attempt : Nat → Attempt)
    (backoff : Nat → Nat) (k : Nat) :
    ∀ t ec sd, t + k = MAX_RETRIES →
      ∀ i, t ≤ i →
        i < loopSpawns (retry_loop true timeout attempt backoff t
          (time_passed_at backoff t) ec sd) →
        (i + 1 < loopSpawns (retry_loop true timeout attempt backoff t
            (time_passed_at backoff t) ec sd) ↔
          ((attempt i).exitCode ≠ 0 ∧ _get_retriable_errors (attempt i).stdout ≠ [] ∧
           i + 1 < MAX_RETRIES ∧ time_passed_at backoff i < timeout)) := by
  induction k with
  | zero =>
    intro t ec sd hk i hti hiS
    rw [retry_loop_exit _ _ _ _ _ _ _ _
      (by simp only [while_cond, if_true, decide_eq_false_iff_not]; omega)] at hiS
    simp only [loopSpawns] at hiS
    omega
  | succ k ih =>
    intro t ec sd hk i hti hiS
    have hw : while_cond true t = true := by
      simp only [while_cond, if_true, decide_eq_true_eq]
      omega
    cases hr : retriable_cond true (attempt t) with
    | false =>
      rw [retry_loop_break _ _ _ _ _ _ _ _ hw hr] at hiS ⊢
      simp only [loopSpawns] at hiS ⊢
      have hit : i = t := by omega
      subst hit
      constructor
      · intro h
        omega
      · rintro ⟨h1, h2, -, -⟩
        exact absurd ((retriable_cond_true_iff _).mpr ⟨h1, h2⟩) (by simp [hr])
    | true =>
      rcases Nat.lt_or_ge (time_passed_at backoff t) timeout with hlt | hge
      · rw [retry_loop_retry _ _ _ _ _ _ _ _ hw hr hlt] at hiS ⊢
        have hbnd := loop_spawns_bounds timeout attempt backoff k (t + 1) (backoff t)
          (attempt t).exitCode (attempt t).stdout (by omega)
        have IH := ih (t + 1) (attempt t).exitCode (attempt t).stdout (by omega)
        simp only [time_passed_at] at IH
        rcases Nat.eq_or_lt_of_le hti with hit | hgt
        · subst hit
          rcases (retriable_cond_true_iff _).mp hr with ⟨h1, h2⟩
          constructor
          · intro h
            exact ⟨h1, h2, by omega, hlt⟩
          · rintro ⟨-, -, h3, -⟩
            omega
        · exact IH i (by omega) hiS
      · rw [retry_loop_timeout _ _ _ _ _ _ _ _ hw hr hge] at hiS ⊢
        simp only [loopSpawns] at hiS ⊢
        have hit : i = t := by omega
        subst hit
        constructor
        · intro h
          omega
        · rintro ⟨-, -, -, h4⟩
          omega

/-- Trace characterization of the last attempt with retry enabled: when
attempt `i` is the last one, the loop raised `TimeoutError` if attempt `i`
satisfied the retry condition with the cumulative wait at or above the
timeout, and otherwise returned attempt `i`'s exit code and output. -/
theorem loop_last (timeout : Nat) (attempt : Nat → Attempt)
    (backoff : Nat → Nat) (k : Nat) :
    ∀ t ec sd, t + k = MAX_RETRIES →
      ∀ i, t ≤ i →
        i + 1 = loopSpawns (retry_loop true timeout attempt backoff t
          (time_passed_at backoff t) ec sd) →
        ((retriable_cond true (attempt i) = true ∧
            timeout ≤ time_passed_at backoff i) →
          retry_loop true timeout attempt backoff t (time_passed_at backoff t) ec sd =
            LoopResult.timedOut (i + 1)) ∧
        (¬(retriable_cond true (attempt i) = true ∧
            timeout ≤ time_passed_at backoff i) →
          retry_loop true timeout attempt backoff t (time_passed_at backoff t) ec sd =
            LoopResult.finished (attempt i).exitCode (attempt i).stdout (i + 1)) := by
  induction k with
  | zero =>
    intro t ec sd hk i hti hiS
    rw [retry_loop_exit _ _ _ _ _ _ _ _
      (by simp only [while_cond, if_true, decide_eq_false_iff_not]; omega)] at hiS
    simp only [loopSpawns] at hiS
    omega
  | succ k ih =>
    intro t ec sd hk i hti hiS
    have hw : while_cond true t = true := by
      simp only [while_cond, if_true, decide_eq_true_eq]
      omega
    cases hr : retriable_cond true (attempt t) with
    | false =>
      rw [retry_loop_break _ _ _ _ _ _ _ _ hw hr] at hiS ⊢
      simp only [loopSpawns] at hiS
      have hit : i = t := by omega
      subst hit
      exact ⟨fun h => absurd h.1 (by simp [hr]), fun _ => rfl⟩
    | true =>
      rcases Nat.lt_or_ge (time_passed_at backoff t) timeout with hlt | hge
      · rw [retry_loop_retry _ _ _ _ _ _ _ _ hw hr hlt] at hiS ⊢
        have hbnd := loop_spawns_bounds timeout attempt backoff k (t + 1) (backoff t)
          (attempt t).exitCode (attempt t).stdout (by omega)
        have IH := ih (t + 1) (attempt t).exitCode (attempt t).stdout (by omega)
        simp only [time_passed_at] at IH
        rcases Nat.eq_or_lt_of_le hti with hit | hgt
        · subst hit
          have ht5 : t + 1 = MAX_RETRIES := by omega
          have hexit : retry_loop true timeout attempt backoff (t + 1) (backoff t)
              (attempt t).exitCode (attempt t).stdout =
              LoopResult.finished (attempt t).exitCode (attempt t).stdout (t + 1) :=
            retry_loop_exit _ _ _ _ _ _ _ _
              (by simp only [while_cond, if_true, decide_eq_false_iff_not]; omega)
          refine ⟨fun h => absurd h.2 (by omega), fun _ => hexit⟩
        · exact IH i (by omega) hiS
      · rw [retry_loop_timeout _ _ _ _ _ _ _ _ hw hr hge] at hiS ⊢
        simp only [loopSpawns] at hiS
        have hit : i = t := by omega
        subst hit
        exact ⟨fun _ => rfl, fun h => absurd ⟨hr, hge⟩ h⟩

/-- Full characterization of the `TimeoutError` outcome with retry enabled:
started at a state with `t + k = MAX_RETRIES` and the `time_passed`
invariant, the loop raises after `n` spawns iff every attempt before `n` was
a retriable failure, every timeout check before the last passed, and the
check after the `n`-th attempt found the cumulative wait at or above the
timeout. -/
theorem loop_timeout_iff (timeout : Nat) (attempt : Nat → Attempt)
    (backoff : Nat → Nat) (k : Nat) :
    ∀ t ec sd, t + k = MAX_RETRIES → ∀ n,
      (retry_loop true timeout attempt backoff t (time_passed_at backoff t) ec sd =
          LoopResult.timedOut n ↔
        (t + 1 ≤ n ∧ n ≤ MAX_RETRIES ∧
         (∀ i, t ≤ i → i < n →
           (attempt i).exitCode ≠ 0 ∧ _get_retriable_errors (attempt i).stdout ≠ []) ∧
         (∀ i, t ≤ i → i + 1 < n → time_passed_at backoff i < timeout) ∧
         timeout ≤ time_passed_at backoff (n - 1))) := by
  induction k with
  | zero =>
    intro t ec sd hk n
    rw [retry_loop_exit _ _ _ _ _ _ _ _
      (by simp only [while_cond, if_true, decide_eq_false_iff_not]; omega)]
    constructor
    · intro h
      exact absurd h (by simp)
    · intro h
      omega
  | succ k ih =>
    intro t ec sd hk n
    have hw : while_cond true t = true := by
      simp only [while_cond, if_true, decide_eq_true_eq]
      omega
    cases hr : retriable_cond true (attempt t) with
    | false =>
      rw [retry_loop_break _ _ _ _ _ _ _ _ hw hr]
      constructor
      · intro h
        exact absurd h (by simp)
      · rintro ⟨h1, -, h3, -, -⟩
        have := h3 t (Nat.le_refl t) (by omega)
        exact absurd ((retriable_cond_true_iff _).mpr this) (by simp [hr])
    | true =>
      rcases (retriable_cond_true_iff _).mp hr with ⟨hec, herr⟩
      rcases Nat.lt_or_ge (time_passed_at backoff t) timeout with hlt | hge
      · rw [retry_loop_retry _ _ _ _ _ _ _ _ hw hr hlt]
        have IH := ih (t + 1) (attempt t).exitCode (attempt t).stdout (by omega) n
        simp only [time_passed_at] at IH
        rw [IH]
        constructor
        · rintro ⟨h1, h2, h3, h4, h5⟩
          refine ⟨by omega, h2, ?_, ?_, h5⟩
          · intro i hti hin
            rcases Nat.eq_or_lt_of_le hti with hit | hgt
            · exact hit ▸ ⟨hec, herr⟩
            · exact h3 i hgt hin
          · intro i hti hin
            rcases Nat.eq_or_lt_of_le hti with hit | hgt
            · subst hit
              exact hlt
            · exact h4 i hgt hin
        · rintro ⟨h1, h2, h3, h4, h5⟩
          have hn2 : t + 2 ≤ n := by
            rcases Nat.eq_or_lt_of_le h1 with hn1 | hn2
            · exfalso
              rw [← hn1] at h5
              simp only [Nat.add_sub_cancel] at h5
              omega
            · omega
          refine ⟨by omega, h2, ?_, ?_, h5⟩
          · intro i hti hin
            exact h3 i (by omega) hin
          · intro i hti hin
            exact h4 i (by omega) hin
      · rw [retry_loop_timeout _ _ _ _ _ _ _ _ hw hr hge]
        constructor
        · intro h
          have hn : n = t + 1 := by
            have := (LoopResult.timedOut.injEq _ _).mp h
            omega
          subst hn
          refine ⟨Nat.le_refl _, by omega, ?_, ?_, ?_⟩
          · intro i hti hin
            have hit : i = t := by omega
            exact hit ▸ ⟨hec, herr⟩
          · intro i hti hin
            omega
          · simpa [Nat.add_sub_cancel] using hge
        · rintro ⟨h1, -, -, h4, h5⟩
          rcases Nat.eq_or_lt_of_le h1 with hn1 | hn2
          · rw [← hn1]
          · exfalso
            have := h4 t (Nat.le_refl t) (by omega)
            omega

/-! ### Bridge lemmas from execute_command to its loop -/

/-- The spawn count of an `execute_command` call equals the spawn count of
its retry loop: the audit step after the loop spawns no further process. -/
theorem spawnsOf_execute_command (retry : Bool) (timeout : Nat)
    (audit_api_url : Option String) (env : Option EnvMap) (cwd : Option (Option String))
    (runner : Option EnvMap → Nat → Attempt) (backoff : Nat → Nat)
    (get_git_root : String → String) (getuser : String) (post_fails : Bool) :
    spawnsOf (execute_command retry timeout audit_api_url env cwd runner backoff
        get_git_root getuser post_fails) =
      loopSpawns (retry_loop retry timeout (fun i => runner (filtered_env env) i)
        backoff 0 0 0 []) := by
  unfold execute_command
  cases hlr : retry_loop retry timeout (fun i => runner (filtered_env env) i)
      backoff 0 0 0 [] with
  | timedOut m => simp [hlr, spawnsOf, loopSpawns]
  | finished ec sd m =>
    simp only [hlr, loopSpawns]
    cases hurl : optTruthy audit_api_url with
    | false => simp [hurl, spawnsOf]
    | true =>
      cases cwd with
      | none => simp [hurl, spawnsOf]
      | some c => cases hc : optTruthy c <;> simp [hurl, hc, spawnsOf]

/-- `execute_command` surfaces `TimeoutError` exactly when its retry loop
timed out, with the same spawn count. -/
theorem execute_command_timeout_iff (retry : Bool) (timeout : Nat)
    (audit_api_url : Option String) (env : Option EnvMap) (cwd : Option (Option String))
    (runner : Option EnvMap → Nat → Attempt) (backoff : Nat → Nat)
    (get_git_root : String → String) (getuser : String) (post_fails : Bool) (n : Nat) :
    (execute_command retry timeout audit_api_url env cwd runner backoff
        get_git_root getuser post_fails = ExecOutcome.timeoutError n ↔
      retry_loop retry timeout (fun i => runner (filtered_env env) i)
        backoff 0 0 0 [] = LoopResult.timedOut n) := by
  unfold execute_command
  cases hlr : retry_loop retry timeout (fun i => runner (filtered_env env) i)
      backoff 0 0 0 [] with
  | timedOut m => simp [hlr]
  | finished ec sd m =>
    simp only [hlr]
    cases hurl : optTruthy audit_api_url with
    | false => simp [hurl]
    | true =>
      cases cwd with
      | none => simp [hurl]
      | some c => cases hc : optTruthy c <;> simp [hurl, hc]

/-- When the loop finishes and no audit URL is configured, `execute_command`
returns the loop's pair and no POST is made. -/
theorem execute_command_no_audit (retry : Bool) (timeout : Nat)
    (audit_api_url : Option String) (env : Option EnvMap) (cwd : Option (Option String))
    (runner : Option EnvMap → Nat → Attempt) (backoff : Nat → Nat)
    (get_git_root : String → String) (getuser : String) (post_fails : Bool)
    (ec : Int) (sd : List String) (n : Nat)
    (hurl : optTruthy audit_api_url = false)
    (hfin : retry_loop retry timeout (fun i => runner (filtered_env env) i)
      backoff 0 0 0 [] = LoopResult.finished ec sd n) :
    execute_command retry timeout audit_api_url env cwd runner backoff
        get_git_root getuser post_fails = ExecOutcome.result ec sd none n := by
  unfold execute_command
  simp only [hfin, hurl]
  simp

/-- When the loop finishes, an audit URL is configured, but the `cwd` keyword
argument was never supplied, `execute_command` raises a `KeyError` from
`kwargs[cwd]`. -/
theorem execute_command_keyerror (retry : Bool) (timeout : Nat)
    (audit_api_url : Option String) (env : Option EnvMap)
    (runner : Option EnvMap → Nat → Attempt) (backoff : Nat → Nat)
    (get_git_root : String → String) (getuser : String) (post_fails : Bool)
    (ec : Int) (sd : List String) (n : Nat)
    (hurl : optTruthy audit_api_url = true)
    (hfin : retry_loop retry timeout (fun i => runner (filtered_env env) i)
      backoff 0 0 0 [] = LoopResult.finished ec sd n) :
    execute_command retry timeout audit_api_url env none runner backoff
        get_git_root getuser post_fails = ExecOutcome.keyError n := by
  unfold execute_command
  simp only [hfin, hurl]
  simp

/-- When the loop finishes, an audit URL is configured, and the supplied
`cwd` value is falsy (`None` or empty), `execute_command` returns the loop's
pair and no POST is made. -/
theorem execute_command_falsy_cwd (retry : Bool) (timeout : Nat)
    (audit_api_url : Option String) (env : Option EnvMap) (c : Option String)
    (runner : Option EnvMap → Nat → Attempt) (backoff : Nat → Nat)
    (get_git_root : String → String) (getuser : String) (post_fails : Bool)
    (ec : Int) (sd : List String) (n : Nat)
    (hurl : optTruthy audit_api_url = true)
    (hc : optTruthy c = false)
    (hfin : retry_loop retry timeout (fun i => runner (filtered_env env) i)
      backoff 0 0 0 [] = LoopResult.finished ec sd n) :
    execute_command retry timeout audit_api_url env (some c) runner backoff
        get_git_root getuser post_fails = ExecOutcome.result ec sd none n := by
  unfold execute_command
  simp only [hfin, hurl, hc]
  simp

/-- When the loop finishes, an audit URL is configured, and the supplied
`cwd` value is truthy, `execute_command` issues exactly one POST, built by
`_post_to_audit_api_url` from the last attempt's pair, and returns that
pair. -/
theorem execute_command_audit (retry : Bool) (timeout : Nat)
    (audit_api_url : Option String) (env : Option EnvMap) (c : Option String)
    (runner : Option EnvMap → Nat → Attempt) (backoff : Nat → Nat)
    (get_git_root : String → String) (getuser : String) (post_fails : Bool)
    (ec : Int) (sd : List String) (n : Nat)
    (hurl : optTruthy audit_api_url = true)
    (hc : optTruthy c = true)
    (hfin : retry_loop retry timeout (fun i => runner (filtered_env env) i)
      backoff 0 0 0 [] = LoopResult.finished ec sd n) :
    execute_command retry timeout audit_api_url env (some c) runner backoff
        get_git_root getuser post_fails =
      ExecOutcome.result ec sd
        (some (_post_to_audit_api_url (audit_api_url.getD "") (c.getD "") ec sd
          get_git_root getuser post_fails)) n := by
  unfold execute_command
  simp only [hfin, hurl, hc]
  simp

/-! ### Claim theorems -/

/-- Claim C2 (confirmed): for every invocation of `execute_command` — any
retry setting, timeout, environment, audit configuration, and any sequence
of attempt results and backoff waits — the number of child-process spawns is
at most 5. -/
theorem spawns_at_most_five (retry : Bool) (timeout : Nat)
    (audit_api_url : Option String) (env : Option EnvMap) (cwd : Option (Option String))
    (runner : Option EnvMap → Nat → Attempt) (backoff : Nat → Nat)
    (get_git_root : String → String) (getuser : String) (post_fails : Bool) :
    spawnsOf (execute_command retry timeout audit_api_url env cwd runner backoff
      get_git_root getuser post_fails) ≤ 5 := by
  rw [spawnsOf_execute_command]
  have h5 : MAX_RETRIES = 5 := rfl
  cases retry with
  | false =>
    rw [retry_loop_no_retry]
    simp [loopSpawns]
  | true =>
    have hb := loop_spawns_bounds timeout (fun i => runner (filtered_env env) i)
      backoff MAX_RETRIES 0 0 0 [] (by omega)
    simp only [time_passed_at] at hb
    omega

/-- Claim C1 (corrected: the original claim omits the timeout check that sits
between the retry decision and the next spawn). For every invocation of
`execute_command` (whose retry loop is `retry_loop retry timeout attempt
backoff 0 0 0 []`), after attempt `i` completes the Process Runner is invoked
again iff retry is enabled, attempt `i`'s exit code is non-zero, some output
line contains a catalog phrase, fewer than `MAX_RETRIES` attempts have
occurred, *and the cumulative backoff wait is still below the timeout*;
when attempt `i` is the last one, the loop returns attempt `i`'s
`(exit code, output)` — unless the retry conditions held but the wait had
reached the timeout, in which case `TimeoutError` is raised; and with retry
disabled every `execute_command` invocation spawns exactly once. -/
theorem retry_decision_iff (retry : Bool) (timeout : Nat) (attempt : Nat → Attempt)
    (backoff : Nat → Nat) (i : Nat)
    (hi : i < loopSpawns (retry_loop retry timeout attempt backoff 0 0 0 [])) :
    (i + 1 < loopSpawns (retry_loop retry timeout attempt backoff 0 0 0 []) ↔
      (retry = true ∧ (attempt i).exitCode ≠ 0 ∧
       _get_retriable_errors (attempt i).stdout ≠ [] ∧
       i + 1 < MAX_RETRIES ∧ time_passed_at backoff i < timeout)) ∧
    (i + 1 = loopSpawns (retry_loop retry timeout attempt backoff 0 0 0 []) →
      ((¬(retry = true ∧ (attempt i).exitCode ≠ 0 ∧
          _get_retriable_errors (attempt i).stdout ≠ [] ∧
          timeout ≤ time_passed_at backoff i)) →
        retry_loop retry timeout attempt backoff 0 0 0 [] =
          LoopResult.finished (attempt i).exitCode (attempt i).stdout (i + 1)) ∧
      ((retry = true ∧ (attempt i).exitCode ≠ 0 ∧
          _get_retriable_errors (attempt i).stdout ≠ [] ∧
          timeout ≤ time_passed_at backoff i) →
        retry_loop retry timeout attempt backoff 0 0 0 [] =
          LoopResult.timedOut (i + 1))) ∧
    (retry = false →
      ∀ audit_api_url env cwd (runner : Option EnvMap → Nat → Attempt)
        get_git_root getuser post_fails,
        spawnsOf (execute_command retry timeout audit_api_url env cwd runner backoff
          get_git_root getuser post_fails) = 1) := by
  cases retry with
  | false =>
    rw [retry_loop_no_retry] at hi ⊢
    simp only [loopSpawns] at hi ⊢
    have hi0 : i = 0 := by omega
    subst hi0
    refine ⟨?_, ?_, ?_⟩
    · constructor
      · intro h
        omega
      · rintro ⟨h, -⟩
        exact absurd h (by simp)
    · intro h
      refine ⟨fun _ => rfl, ?_⟩
      rintro ⟨h, -⟩
      exact absurd h (by simp)
    · intro _ audit_api_url env cwd runner get_git_root getuser post_fails
      rw [spawnsOf_execute_command, retry_loop_no_retry]
      simp [loopSpawns]
  | true =>
    have Hiff := loop_retry_iff timeout attempt backoff MAX_RETRIES 0 0 [] (by omega)
    have Hlast := loop_last timeout attempt backoff MAX_RETRIES 0 0 [] (by omega)
    simp only [time_passed_at] at Hiff Hlast
    refine ⟨?_, ?_, ?_⟩
    · rw [Hiff i (Nat.zero_le i) hi]
      constructor
      · rintro ⟨h1, h2, h3, h4⟩
        exact ⟨rfl, h1, h2, h3, h4⟩
      · rintro ⟨-, h1, h2, h3, h4⟩
        exact ⟨h1, h2, h3, h4⟩
    · intro hS
      have HL := Hlast i (Nat.zero_le i) hS
      constructor
      · intro hnot
        refine HL.2 ?_
        rintro ⟨hrc, hge⟩
        rcases (retriable_cond_true_iff _).mp hrc with ⟨h1, h2⟩
        exact hnot ⟨rfl, h1, h2, hge⟩
      · rintro ⟨-, h1, h2, hge⟩
        exact HL.1 ⟨(retriable_cond_true_iff _).mpr ⟨h1, h2⟩, hge⟩
    · intro h
      exact absurd h (by simp)

/-- Claim C1, counterexample to the claim as stated: with retry enabled,
`timeout = 0`, and a first attempt that exits 1 with output `Throttling`
(a catalog phrase) after fewer than the maximum number of attempts, the
claimed iff demands a second spawn, but the engine raises `TimeoutError`
after a single spawn. -/
theorem retry_decision_iff_cex :
    ¬ (0 + 1 < loopSpawns (retry_loop true 0 (fun _ => Attempt.mk 1 ["Throttling"])
          (fun _ => 3) 0 0 0 []) ↔
        (true = true ∧ (Attempt.mk (1 : Int) ["Throttling"]).exitCode ≠ 0 ∧
         _get_retriable_errors (Attempt.mk (1 : Int) ["Throttling"]).stdout ≠ [] ∧
         0 + 1 < MAX_RETRIES)) := by
  have hl : retry_loop true 0 (fun _ => Attempt.mk 1 ["Throttling"]) (fun _ => 3) 0 0 0 [] =
      LoopResult.timedOut 1 :=
    retry_loop_timeout _ _ _ _ _ _ _ _ (by decide) (by decide) (Nat.le_refl 0)
  rw [hl]
  decide

/-- Claim C1, witness: a retry-disabled invocation with a successful attempt;
the hypothesis `i < spawns` holds at `i = 0` and the theorem's three
conclusions are instantiated there. -/
theorem retry_decision_iff_witness :
    (0 < loopSpawns (retry_loop false 900 (fun _ => Attempt.mk 0 []) (fun _ => 3) 0 0 0 [])) ∧
    ((0 + 1 < loopSpawns (retry_loop false 900 (fun _ => Attempt.mk 0 []) (fun _ => 3) 0 0 0 []) ↔
        (false = true ∧ (Attempt.mk (0 : Int) []).exitCode ≠ 0 ∧
         _get_retriable_errors (Attempt.mk (0 : Int) []).stdout ≠ [] ∧
         0 + 1 < MAX_RETRIES ∧ time_passed_at (fun _ => 3) 0 < 900)) ∧
      (0 + 1 = loopSpawns (retry_loop false 900 (fun _ => Attempt.mk 0 []) (fun _ => 3) 0 0 0 []) →
        ((¬(false = true ∧ (Attempt.mk (0 : Int) []).exitCode ≠ 0 ∧
            _get_retriable_errors (Attempt.mk (0 : Int) []).stdout ≠ [] ∧
            900 ≤ time_passed_at (fun _ => 3) 0)) →
          retry_loop false 900 (fun _ => Attempt.mk 0 []) (fun _ => 3) 0 0 0 [] =
            LoopResult.finished (Attempt.mk (0 : Int) []).exitCode
              (Attempt.mk (0 : Int) []).stdout (0 + 1)) ∧
        ((false = true ∧ (Attempt.mk (0 : Int) []).exitCode ≠ 0 ∧
            _get_retriable_errors (Attempt.mk (0 : Int) []).stdout ≠ [] ∧
            900 ≤ time_passed_at (fun _ => 3) 0) →
          retry_loop false 900 (fun _ => Attempt.mk 0 []) (fun _ => 3) 0 0 0 [] =
            LoopResult.timedOut (0 + 1))) ∧
      (false = false →
        ∀ audit_api_url env cwd (runner : Option EnvMap → Nat → Attempt)
          get_git_root getuser post_fails,
          spawnsOf (execute_command false 900 audit_api_url env cwd runner (fun _ => 3)
            get_git_root getuser post_fails) = 1)) := by
  have hi : 0 < loopSpawns (retry_loop false 900 (fun _ => Attempt.mk 0 [])
      (fun _ => 3) 0 0 0 []) := by
    rw [retry_loop_no_retry]
    decide
  exact ⟨hi, retry_decision_iff false 900 (fun _ => Attempt.mk 0 []) (fun _ => 3) 0 hi⟩

/-- Claim C3 (corrected: the original claim holds only when the timeout check
after each retriable failure still finds the cumulative backoff wait below
the timeout budget — otherwise a `TimeoutError` is raised — and when the
audit step, if an audit URL is configured, was given a `cwd` keyword).
If retry is enabled and every attempt exits non-zero with output matching the
transient-error catalog, then after exactly 5 spawns `execute_command`
returns normally, and the returned exit code and output are those of the 5th
(last) attempt. -/
theorem retry_budget_exhausted (timeout : Nat) (audit_api_url : Option String)
    (env : Option EnvMap) (cwd : Option (Option String))
    (runner : Option EnvMap → Nat → Attempt) (backoff : Nat → Nat)
    (get_git_root : String → String) (getuser : String) (post_fails : Bool)
    (hall : ∀ i, i < 5 →
      (runner (filtered_env env) i).exitCode ≠ 0 ∧
      _get_retriable_errors (runner (filtered_env env) i).stdout ≠ [])
    (htime : ∀ i, i < 5 → time_passed_at backoff i < timeout)
    (hcwd : optTruthy audit_api_url = true → cwd ≠ none) :
    ∃ posted, execute_command true timeout audit_api_url env cwd runner backoff
        get_git_root getuser post_fails =
      ExecOutcome.result (runner (filtered_env env) 4).exitCode
        (runner (filtered_env env) 4).stdout posted 5 := by
  have h5 : MAX_RETRIES = 5 := rfl
  have Hiff := loop_retry_iff timeout (fun i => runner (filtered_env env) i) backoff
    MAX_RETRIES 0 0 [] (by omega)
  have Hlast := loop_last timeout (fun i => runner (filtered_env env) i) backoff
    MAX_RETRIES 0 0 [] (by omega)
  have Hbnd := loop_spawns_bounds timeout (fun i => runner (filtered_env env) i) backoff
    MAX_RETRIES 0 0 0 [] (by omega)
  have htp0 : time_passed_at backoff 0 = 0 := rfl
  simp only [htp0] at Hiff Hlast Hbnd
  have hS1 : 0 + 1 ≤ loopSpawns (retry_loop true timeout
      (fun i => runner (filtered_env env) i) backoff 0 0 0 []) := Hbnd.2.2 (by omega)
  have hc1 : 1 < loopSpawns (retry_loop true timeout
      (fun i => runner (filtered_env env) i) backoff 0 0 0 []) :=
    (Hiff 0 (by omega) (by omega)).mpr ⟨(hall 0 (by omega)).1, (hall 0 (by omega)).2,
      by omega, htime 0 (by omega)⟩
  have hc2 : 2 < loopSpawns (retry_loop true timeout
      (fun i => runner (filtered_env env) i) backoff 0 0 0 []) :=
    (Hiff 1 (by omega) (by omega)).mpr ⟨(hall 1 (by omega)).1, (hall 1 (by omega)).2,
      by omega, htime 1 (by omega)⟩
  have hc3 : 3 < loopSpawns (retry_loop true timeout
      (fun i => runner (filtered_env env) i) backoff 0 0 0 []) :=
    (Hiff 2 (by omega) (by omega)).mpr ⟨(hall 2 (by omega)).1, (hall 2 (by omega)).2,
      by omega, htime 2 (by omega)⟩
  have hc4 : 4 < loopSpawns (retry_loop true timeout
      (fun i => runner (filtered_env env) i) backoff 0 0 0 []) :=
    (Hiff 3 (by omega) (by omega)).mpr ⟨(hall 3 (by omega)).1, (hall 3 (by omega)).2,
      by omega, htime 3 (by omega)⟩
  have hS : loopSpawns (retry_loop true timeout
      (fun i => runner (filtered_env env) i) backoff 0 0 0 []) = 5 := by omega
  have hfin := (Hlast 4 (by omega) (by omega)).2 (by
    rintro ⟨-, hge⟩
    have := htime 4 (by omega)
    omega)
  cases hurl : optTruthy audit_api_url with
  | false =>
    exact ⟨none, execute_command_no_audit true timeout audit_api_url env cwd runner backoff
      get_git_root getuser post_fails _ _ _ hurl hfin⟩
  | true =>
    cases cwd with
    | none => exact absurd rfl (hcwd hurl)
    | some c =>
      cases hc : optTruthy c with
      | false =>
        exact ⟨none, execute_command_falsy_cwd true timeout audit_api_url env c runner backoff
          get_git_root getuser post_fails _ _ _ hurl hc hfin⟩
      | true =>
        exact ⟨_, execute_command_audit true timeout audit_api_url env c runner backoff
          get_git_root getuser post_fails _ _ _ hurl hc hfin⟩

/-- Claim C3, counterexample to the claim as stated: with retry enabled and
`timeout = 0`, every attempt that runs exits non-zero with a catalog phrase
in its output, yet `execute_command` raises `TimeoutError` after a single
spawn instead of returning normally after 5 spawns. -/
theorem retry_budget_exhausted_cex :
    execute_command true 0 none none none (fun _ _ => Attempt.mk 1 ["Throttling"])
        (fun _ => 3) (fun s => s) "someuser" false = ExecOutcome.timeoutError 1 := by
  rw [execute_command_timeout_iff]
  exact retry_loop_timeout _ _ _ _ _ _ _ _ (by decide) (by decide) (Nat.le_refl 0)

/-- Claim C3, witness: five attempts each exiting 1 with `Throttling` in the
output, generous timeout, no audit URL; the theorem yields a normal return of
the 5th attempt's pair after exactly 5 spawns. -/
theorem retry_budget_exhausted_witness :
    (∀ i, i < 5 →
      ((fun (_ : Option EnvMap) (_ : Nat) => Attempt.mk 1 ["Throttling"])
          (filtered_env none) i).exitCode ≠ 0 ∧
      _get_retriable_errors (((fun (_ : Option EnvMap) (_ : Nat) => Attempt.mk 1 ["Throttling"])
          (filtered_env none) i)).stdout ≠ []) ∧
    (∀ i, i < 5 → time_passed_at (fun _ => 3) i < 900) ∧
    (optTruthy none = true → (none : Option (Option String)) ≠ none) ∧
    ∃ posted, execute_command true 900 none none none
        (fun _ _ => Attempt.mk 1 ["Throttling"]) (fun _ => 3) (fun s => s) "someuser" false =
      ExecOutcome.result 1 ["Throttling"] posted 5 := by
  refine ⟨by decide, by decide, by decide, ?_⟩
  exact retry_budget_exhausted 900 none none none (fun _ _ => Attempt.mk 1 ["Throttling"])
    (fun _ => 3) (fun s => s) "someuser" false (by decide) (by decide) (by decide)

/-- Claim C4 (confirmed): `execute_command` raises a timeout error exactly
when some attempt was a retriable failure (retry enabled, non-zero exit,
catalog phrase in the output) and, at the check following it, the cumulative
backoff wait time had reached or passed the timeout budget — so that waiting
for the next attempt would exceed the budget; every earlier check had found
the wait below the budget. This raise is the only loop outcome surfaced as
an exception rather than a returned result: the loop itself only ever
finishes with a result pair or times out. -/
theorem timeout_error_iff (retry : Bool) (timeout : Nat) (audit_api_url : Option String)
    (env : Option EnvMap) (cwd : Option (Option String))
    (runner : Option EnvMap → Nat → Attempt) (backoff : Nat → Nat)
    (get_git_root : String → String) (getuser : String) (post_fails : Bool) :
    (∀ n, execute_command retry timeout audit_api_url env cwd runner backoff
          get_git_root getuser post_fails = ExecOutcome.timeoutError n ↔
        (1 ≤ n ∧ n ≤ MAX_RETRIES ∧
         (∀ i, i < n → retry = true ∧ (runner (filtered_env env) i).exitCode ≠ 0 ∧
           _get_retriable_errors (runner (filtered_env env) i).stdout ≠ []) ∧
         (∀ i, i + 1 < n → time_passed_at backoff i < timeout) ∧
         timeout ≤ time_passed_at backoff (n - 1))) ∧
    ((∃ m, retry_loop retry timeout (fun i => runner (filtered_env env) i) backoff 0 0 0 [] =
        LoopResult.timedOut m) ∨
     (∃ ec sd m, retry_loop retry timeout (fun i => runner (filtered_env env) i)
        backoff 0 0 0 [] = LoopResult.finished ec sd m)) := by
  constructor
  · intro n
    rw [execute_command_timeout_iff]
    cases retry with
    | false =>
      rw [retry_loop_no_retry]
      constructor
      · intro h
        exact absurd h (by simp)
      · rintro ⟨h1, -, h3, -, -⟩
        exact absurd ((h3 0 (by omega)).1) (by simp)
    | true =>
      have H := loop_timeout_iff timeout (fun i => runner (filtered_env env) i) backoff
        MAX_RETRIES 0 0 [] (by omega) n
      simp only [time_passed_at] at H
      rw [H]
      constructor
      · rintro ⟨h1, h2, h3, h4, h5⟩
        exact ⟨by omega, h2, fun i hin => ⟨rfl, h3 i (by omega) hin⟩,
          fun i hin => h4 i (by omega) hin, h5⟩
      · rintro ⟨h1, h2, h3, h4, h5⟩
        exact ⟨by omega, h2, fun i _ hin => (h3 i hin).2,
          fun i _ hin => h4 i hin, h5⟩
  · cases hlr : retry_loop retry timeout (fun i => runner (filtered_env env) i)
        backoff 0 0 0 [] with
    | finished ec sd m => exact Or.inr ⟨ec, sd, m, rfl⟩
    | timedOut m => exact Or.inl ⟨m, rfl⟩

/-- Claim C4, witness: with retry enabled, `timeout = 0` and a retriable
first failure, the characterization's right-hand side holds at `n = 1` and
the theorem yields the raised `TimeoutError` after one spawn. -/
theorem timeout_error_iff_witness :
    execute_command true 0 none none none (fun _ _ => Attempt.mk 255 ["unexpected EOF"])
        (fun _ => 7) (fun s => s) "auditor" true = ExecOutcome.timeoutError 1 :=
  ((timeout_error_iff true 0 none none none (fun _ _ => Attempt.mk 255 ["unexpected EOF"])
      (fun _ => 7) (fun s => s) "auditor" true).1 1).mpr
    (by
      refine ⟨Nat.le_refl 1, by decide, ?_, ?_, Nat.zero_le _⟩
      · intro i hi
        have hi0 : i = 0 := by omega
        subst hi0
        exact ⟨rfl, by decide, by decide⟩
      · intro i hi
        omega)

/-- Claim C5 (corrected: when an audit URL is configured but the `cwd`
keyword argument was never supplied, `kwargs[cwd]` on cli.py line 103 raises
a `KeyError` instead of skipping the audit step). When the loop finishes:
with no (or an empty) audit URL the audit step is skipped for every `cwd`
and the pair is returned normally; with a truthy audit URL and a supplied
but falsy working directory (None or empty) the audit step is skipped and
the pair is returned normally; but with a truthy audit URL and no `cwd`
keyword at all, `execute_command` raises `KeyError`. -/
theorem audit_skip (retry : Bool) (timeout : Nat) (audit_api_url : Option String)
    (env : Option EnvMap) (runner : Option EnvMap → Nat → Attempt) (backoff : Nat → Nat)
    (get_git_root : String → String) (getuser : String) (post_fails : Bool)
    (ec : Int) (sd : List String) (n : Nat)
    (hfin : retry_loop retry timeout (fun i => runner (filtered_env env) i)
      backoff 0 0 0 [] = LoopResult.finished ec sd n) :
    (optTruthy audit_api_url = false →
      ∀ cwd, execute_command retry timeout audit_api_url env cwd runner backoff
          get_git_root getuser post_fails = ExecOutcome.result ec sd none n) ∧
    (optTruthy audit_api_url = true →
      (∀ c, optTruthy c = false →
        execute_command retry timeout audit_api_url env (some c) runner backoff
            get_git_root getuser post_fails = ExecOutcome.result ec sd none n) ∧
      execute_command retry timeout audit_api_url env none runner backoff
          get_git_root getuser post_fails = ExecOutcome.keyError n) := by
  refine ⟨?_, ?_⟩
  · intro hurl cwd
    exact execute_command_no_audit retry timeout audit_api_url env cwd runner backoff
      get_git_root getuser post_fails ec sd n hurl hfin
  · intro hurl
    refine ⟨?_, ?_⟩
    · intro c hc
      exact execute_command_falsy_cwd retry timeout audit_api_url env c runner backoff
        get_git_root getuser post_fails ec sd n hurl hc hfin
    · exact execute_command_keyerror retry timeout audit_api_url env runner backoff
        get_git_root getuser post_fails ec sd n hurl hfin

/-- Claim C5, counterexample to the claim as stated: an audit URL is
configured and no working directory is supplied (`cwd` keyword absent), yet
`execute_command` does not return the pair normally — it raises a `KeyError`
from the `kwargs[cwd]` access. -/
theorem audit_skip_cex :
    execute_command false 900 (some "https://audit.example") none none
        (fun _ _ => Attempt.mk 0 []) (fun _ => 3) (fun s => s) "bob" false =
      ExecOutcome.keyError 1 := by
  apply execute_command_keyerror
  · decide
  · rw [retry_loop_no_retry]

/-- Claim C5, witness: with no audit URL configured, a finished loop's pair
is returned normally, with no POST, whatever the `cwd` argument. -/
theorem audit_skip_witness :
    (retry_loop false 900 (fun i => (fun (_ : Option EnvMap) (_ : Nat) => Attempt.mk 0 [])
        (filtered_env none) i) (fun _ => 3) 0 0 0 [] = LoopResult.finished 0 [] 1) ∧
    execute_command false 900 none none none (fun _ _ => Attempt.mk 0 [])
        (fun _ => 3) (fun s => s) "bob" false = ExecOutcome.result 0 [] none 1 := by
  have hfin : retry_loop false 900 (fun i => (fun (_ : Option EnvMap) (_ : Nat) =>
      Attempt.mk 0 []) (filtered_env none) i) (fun _ => 3) 0 0 0 [] =
      LoopResult.finished 0 [] 1 := by
    rw [retry_loop_no_retry]
  exact ⟨hfin, (audit_skip false 900 none none (fun _ _ => Attempt.mk 0 []) (fun _ => 3)
    (fun s => s) "bob" false 0 [] 1 hfin).1 rfl none⟩

/-- Claim C6 (confirmed): whether or not the audit HTTP POST raises a
`RequestException` (network error or timeout; a non-2xx response does not
even raise in `requests` without `raise_for_status`), the outcome of
`execute_command` — the returned pair, the POSTed record, the spawn count,
and whether anything is raised — is identical: the `except` clause swallows
the failure after logging it. -/
theorem audit_failure_isolated (retry : Bool) (timeout : Nat)
    (audit_api_url : Option String) (env : Option EnvMap) (cwd : Option (Option String))
    (runner : Option EnvMap → Nat → Attempt) (backoff : Nat → Nat)
    (get_git_root : String → String) (getuser : String) (post_fails post_fails' : Bool) :
    execute_command retry timeout audit_api_url env cwd runner backoff
        get_git_root getuser post_fails =
      execute_command retry timeout audit_api_url env cwd runner backoff
        get_git_root getuser post_fails' := by
  have hpost : ∀ (u2 p : String) (ec : Int) (sd : List String),
      _post_to_audit_api_url u2 p ec sd get_git_root getuser post_fails =
        _post_to_audit_api_url u2 p ec sd get_git_root getuser post_fails' := by
    intro u2 p ec sd
    unfold _post_to_audit_api_url
    cases post_fails <;> cases post_fails' <;> rfl
  unfold execute_command
  cases hlr : retry_loop retry timeout (fun i => runner (filtered_env env) i)
      backoff 0 0 0 [] with
  | timedOut m => simp [hlr]
  | finished ec sd m =>
    cases hurl : optTruthy audit_api_url with
    | false => simp [hlr, hurl]
    | true =>
      cases cwd with
      | none => simp [hlr, hurl]
      | some c =>
        cases hc : optTruthy c with
        | false => simp [hlr, hurl, hc]
        | true => simp [hlr, hurl, hc, hpost]

/-- Claim C7 (confirmed): when the audit step runs (truthy audit URL, a
supplied truthy working directory, loop finished), `execute_command` issues
exactly one POST — whatever the number of attempts `n` — whose JSON body has
exactly the fields `directory`, `status`, `run_by` and `output`, where
`status` is `SUCCESS` iff the final exit code is 0 and `FAILED` otherwise,
`run_by` is the local OS user, and `output` is the final attempt's output
lines. -/
theorem audit_record_single_post (retry : Bool) (timeout : Nat)
    (audit_api_url : Option String) (env : Option EnvMap) (c : Option String)
    (runner : Option EnvMap → Nat → Attempt) (backoff : Nat → Nat)
    (get_git_root : String → String) (getuser : String) (post_fails : Bool)
    (ec : Int) (sd : List String) (n : Nat)
    (hurl : optTruthy audit_api_url = true)
    (hc : optTruthy c = true)
    (hfin : retry_loop retry timeout (fun i => runner (filtered_env env) i)
      backoff 0 0 0 [] = LoopResult.finished ec sd n) :
    execute_command retry timeout audit_api_url env (some c) runner backoff
        get_git_root getuser post_fails =
      ExecOutcome.result ec sd
        (some { directory := py_replace_empty (c.getD "") (get_git_root (c.getD ""))
              , status := if ec = 0 then "SUCCESS" else "FAILED"
              , run_by := getuser
              , output := sd }) n := by
  rw [execute_command_audit retry timeout audit_api_url env c runner backoff
    get_git_root getuser post_fails ec sd n hurl hc hfin]
  have hrec : _post_to_audit_api_url (audit_api_url.getD "") (c.getD "") ec sd
      get_git_root getuser post_fails =
      { directory := py_replace_empty (c.getD "") (get_git_root (c.getD ""))
      , status := if ec = 0 then "SUCCESS" else "FAILED"
      , run_by := getuser
      , output := sd } := by
    unfold _post_to_audit_api_url
    by_cases hec : ec = 0 <;> cases post_fails <;> simp [hec]
  rw [hrec]

/-- Claim C7, witness: a failed single attempt under git root `/repo`
produces one POST with directory `/dir`, status `FAILED`, the local user,
and the final (empty-line-free) output. -/
theorem audit_record_single_post_witness :
    execute_command false 900 (some "https://audit.example/api") none (some (some "/repo/dir"))
        (fun _ _ => Attempt.mk 2 ["boom"]) (fun _ => 3) (fun _ => "/repo") "carol" false =
      ExecOutcome.result 2 ["boom"]
        (some { directory := "/dir", status := "FAILED", run_by := "carol"
              , output := ["boom"] }) 1 :=
  (audit_record_single_post false 900 (some "https://audit.example/api") none
      (some "/repo/dir") (fun _ _ => Attempt.mk 2 ["boom"]) (fun _ => 3) (fun _ => "/repo")
      "carol" false 2 ["boom"] 1 (by decide) (by decide)
      (by rw [retry_loop_no_retry])).trans (by decide)

/-- A list is a Boolean prefix of itself followed by anything. -/
theorem isPrefixOf_append_self (l t : List Char) : l.isPrefixOf (l ++ t) = true := by
  induction l with
  | nil => simp [List.isPrefixOf]
  | cons c cs ih => simp [List.isPrefixOf, ih]

/-- A non-empty list is not a Boolean prefix of the empty list. -/
theorem ne_nil_isPrefixOf_nil (l : List Char) (h : l ≠ []) :
    l.isPrefixOf ([] : List Char) = false := by
  cases l with
  | nil => exact absurd rfl h
  | cons c cs => rfl

/-- If the Python substring test fails, the pattern starts at no position of
the string (positions beyond the length included, as long as the pattern is
non-empty). -/
theorem strIn_false_forall (pat s : String) (hne : pat.data ≠ [])
    (h : strIn pat s = false) :
    ∀ i, pat.data.isPrefixOf (s.data.drop i) = false := by
  intro i
  rw [strIn, List.any_eq_false] at h
  by_cases hi : i < s.data.length + 1
  · have := h i (List.mem_range.mpr hi)
    simpa only [Bool.not_eq_true] using this
  · rw [List.drop_eq_nil_of_le (by omega)]
    exact ne_nil_isPrefixOf_nil _ hne

/-- A Boolean prefix gives an explicit decomposition as an append. -/
theorem isPrefixOf_exists_append :
    ∀ (l s : List Char), l.isPrefixOf s = true → ∃ t, s = l ++ t := by
  intro l
  induction l with
  | nil => exact fun s _ => ⟨s, rfl⟩
  | cons c cs ih =>
    intro s h
    cases s with
    | nil => simp [List.isPrefixOf] at h
    | cons d ds =>
      simp only [List.isPrefixOf, Bool.and_eq_true, beq_iff_eq] at h
      obtain ⟨t, ht⟩ := ih ds h.2
      exact ⟨t, by simp [h.1, ht]⟩

/-- If the pattern starts at no position of the scanned list, the scan copies
it unchanged (with enough fuel). -/
theorem pyRemoveGo_no_occurrence (pat : List Char) :
    ∀ (fuel : Nat) (s : List Char), s.length ≤ fuel →
      (∀ i, pat.isPrefixOf (s.drop i) = false) → pyRemoveGo pat fuel s = s := by
  intro fuel
  induction fuel with
  | zero => intro s _ _; rfl
  | succ fuel ih =>
    intro s hs h
    cases s with
    | nil => rfl
    | cons c rest =>
      have h0 : pat.isPrefixOf (c :: rest) = false := by simpa using h 0
      simp only [pyRemoveGo, h0, Bool.and_false, Bool.false_eq_true, if_false]
      have hrest := ih rest (by simpa using Nat.le_of_succ_le_succ (by simpa using hs))
        (fun i => by simpa [List.drop_succ_cons] using h (i + 1))
      rw [hrest]

/-- The scan of `leading ++ t`, when the (non-empty) pattern occurs nowhere in
`t`, removes exactly the leading occurrence. -/
theorem pyRemoveGo_leading (r0 : Char) (rs t : List Char)
    (hnomore : ∀ i, (r0 :: rs).isPrefixOf (t.drop i) = false) :
    pyRemoveGo (r0 :: rs) ((r0 :: rs) ++ t).length ((r0 :: rs) ++ t) = t := by
  have hlen : ((r0 :: rs) ++ t).length = (rs ++ t).length + 1 := by simp
  rw [hlen, List.cons_append]
  have hcond : (!(r0 :: rs).isEmpty && (r0 :: rs).isPrefixOf (r0 :: (rs ++ t))) = true := by
    rw [← List.cons_append]
    simp [isPrefixOf_append_self]
  simp only [pyRemoveGo, hcond, if_true]
  have hdrop : (r0 :: (rs ++ t)).drop (r0 :: rs).length = t := by
    rw [← List.cons_append]
    exact List.drop_left _ _
  rw [hdrop]
  exact pyRemoveGo_no_occurrence _ _ _ (by simp) hnomore

/-- When the (non-empty) pattern occurs in the string only as its leading
piece, Python's replace-by-empty removes exactly that leading piece. -/
theorem py_replace_empty_leading (path root : String) (hne : root.data ≠ [])
    (hpre : root.data.isPrefixOf path.data = true)
    (hnomore : ∀ i, root.data.isPrefixOf ((path.data.drop root.data.length).drop i) = false) :
    py_replace_empty path root = String.mk (path.data.drop root.data.length) := by
  obtain ⟨t, ht⟩ := isPrefixOf_exists_append root.data path.data hpre
  rw [py_replace_empty, ht, List.drop_left]
  rw [ht, List.drop_left] at hnomore
  cases hroot : root.data with
  | nil => exact absurd hroot hne
  | cons r0 rs =>
    rw [hroot] at hnomore
    congr 1
    exact pyRemoveGo_leading r0 rs t hnomore

/-- The directory field of the audit record is the working directory with the
git root removed by Python's `str.replace`. -/
theorem audit_directory_eq_replace (audit_api_url path : String) (ec : Int)
    (sd : List String) (get_git_root : String → String) (getuser : String)
    (post_fails : Bool) :
    (_post_to_audit_api_url audit_api_url path ec sd get_git_root getuser
        post_fails).directory = py_replace_empty path (get_git_root path) := by
  unfold _post_to_audit_api_url
  cases post_fails <;> rfl

/-- Claim C8 (corrected: `path.replace(root, empty)` removes *every*
occurrence of the root substring, scanning left to right, not only a leading
prefix). For every working directory path and git root returned by the
collaborator, the audit record's directory field is the path with all
occurrences of the root removed; in particular, whenever the root is
non-empty, occurs at the start of the path, and occurs nowhere in the rest,
this equals the path with its leading git-root piece removed and the rest of
the path unchanged — the spec's description `spec_directory_label`. -/
theorem audit_directory_label (audit_api_url path : String) (ec : Int)
    (sd : List String) (get_git_root : String → String) (getuser : String)
    (post_fails : Bool)
    (hne : (get_git_root path).data ≠ [])
    (hpre : (get_git_root path).data.isPrefixOf path.data = true)
    (honce : strIn (get_git_root path)
      (String.mk (path.data.drop (get_git_root path).data.length)) = false) :
    (_post_to_audit_api_url audit_api_url path ec sd get_git_root getuser
        post_fails).directory = spec_directory_label path (get_git_root path) := by
  rw [audit_directory_eq_replace]
  rw [spec_directory_label, if_pos hpre]
  exact py_replace_empty_leading path (get_git_root path) hne hpre
    (strIn_false_forall _ _ hne honce)

/-- Claim C8, counterexample to the claim as stated: for working directory
`/a/a/b` under git root `/a`, the code's `replace` removes both occurrences
of `/a`, yielding directory `/b`, while removing only the leading git-root
prefix would yield `/a/b`. -/
theorem audit_directory_label_cex :
    (_post_to_audit_api_url "https://audit.example" "/a/a/b" 0 [] (fun _ => "/a")
        "dave" false).directory = "/b" ∧
      spec_directory_label "/a/a/b" "/a" = "/a/b" := by
  constructor
  · rw [audit_directory_eq_replace]
    decide
  · decide

/-- Claim C8, witness: for working directory `/repo/config` under git root
`/repo` (root occurring only as the leading piece), the directory field is
`/config`, the path with the git-root prefix removed. -/
theorem audit_directory_label_witness :
    (((fun (_ : String) => "/repo") "/repo/config").data ≠ [] ∧
     ((fun (_ : String) => "/repo") "/repo/config").data.isPrefixOf "/repo/config".data = true ∧
     strIn ((fun (_ : String) => "/repo") "/repo/config")
       (String.mk ("/repo/config".data.drop
         ((fun (_ : String) => "/repo") "/repo/config").data.length)) = false) ∧
    (_post_to_audit_api_url "https://audit.example" "/repo/config" 0 [] (fun _ => "/repo")
        "erin" true).directory = spec_directory_label "/repo/config"
          ((fun (_ : String) => "/repo") "/repo/config") := by
  refine ⟨⟨by decide, by decide, by decide⟩, ?_⟩
  exact audit_directory_label "https://audit.example" "/repo/config" 0 [] (fun _ => "/repo")
    "erin" true (by decide) (by decide) (by decide)

/-- Claim C9 (confirmed): the `env` mapping is filtered once, before the
retry loop. An entry belongs to the filtered environment iff it belongs to
the input mapping with a non-`None` value (so every `None`-valued entry is
removed and every other entry passes through unchanged), the filtered
environment is a sublist of the input (order and values preserved), and the
whole `execute_command` outcome only depends on the Process Runner's
behaviour on the filtered environment — every attempt of every retry is
spawned with that same filtered environment. -/
theorem env_filtering (env : EnvMap) (k : String) (v : Option String)
    (retry : Bool) (timeout : Nat) (audit_api_url : Option String)
    (cwd : Option (Option String))
    (runner runner' : Option EnvMap → Nat → Attempt) (backoff : Nat → Nat)
    (get_git_root : String → String) (getuser : String) (post_fails : Bool)
    (hagree : ∀ i, runner (filtered_env (some env)) i = runner' (filtered_env (some env)) i) :
    ((k, v) ∈ (env.filter fun kv => kv.2.isSome) ↔ ((k, v) ∈ env ∧ v ≠ none)) ∧
    filtered_env (some env) = some (env.filter fun kv => kv.2.isSome) ∧
    (env.filter fun kv => kv.2.isSome).Sublist env ∧
    execute_command retry timeout audit_api_url (some env) cwd runner backoff
        get_git_root getuser post_fails =
      execute_command retry timeout audit_api_url (some env) cwd runner' backoff
        get_git_root getuser post_fails := by
  refine ⟨?_, rfl, List.filter_sublist env, ?_⟩
  · rw [List.mem_filter]
    simp [Option.isSome_iff_ne_none]
  · have hfun : (fun i => runner (filtered_env (some env)) i) =
        fun i => runner' (filtered_env (some env)) i := funext hagree
    unfold execute_command
    simp only [hfun]

/-- Claim C9, witness: the mapping maps `A` to a value and `B` to `None`;
`(B, None)` is filtered out, `(A, some 1)` is kept, the filtered mapping is a
sublist, and two runners agreeing on the filtered environment give identical
outcomes. -/
theorem env_filtering_witness :
    ((("B" : String), (none : Option String)) ∈
        ([("A", some "1"), ("B", none)] : EnvMap).filter (fun kv => kv.2.isSome) ↔
      ((("B" : String), (none : Option String)) ∈
          ([("A", some "1"), ("B", none)] : EnvMap) ∧ (none : Option String) ≠ none)) ∧
    filtered_env (some [("A", some "1"), ("B", none)]) =
      some (([("A", some "1"), ("B", none)] : EnvMap).filter fun kv => kv.2.isSome) ∧
    (([("A", some "1"), ("B", none)] : EnvMap).filter fun kv => kv.2.isSome).Sublist
      [("A", some "1"), ("B", none)] ∧
    execute_command false 60 none (some [("A", some "1"), ("B", none)]) none
        (fun _ _ => Attempt.mk 0 []) (fun _ => 3) (fun s => s) "frank" false =
      execute_command false 60 none (some [("A", some "1"), ("B", none)]) none
        (fun _ _ => Attempt.mk 0 []) (fun _ => 3) (fun s => s) "frank" false :=
  env_filtering [("A", some "1"), ("B", none)] "B" none false 60 none none
    (fun _ _ => Attempt.mk 0 []) (fun _ _ => Attempt.mk 0 []) (fun _ => 3)
    (fun s => s) "frank" false (fun _ => rfl)

/-- Claim C10 (confirmed): `env_var_deserializer` returns an
`SSMEnvVarConfig` carrying the dict's `path` value when `source` is `ssm`, a
`TextEnvVarConfig` carrying the `value` value when `source` is `text`, an
`UnsetEnvVarConfig` when `source` is `unset`, and raises
`RuntimeError(Invalid Source)` for every other `source` value. -/
theorem env_var_deserializer_cases (obj_dict : EnvVarDict) :
    (∀ p, obj_dict.source = some "ssm" → obj_dict.path = some p →
      env_var_deserializer obj_dict =
        Except.ok (AbstractEnvVarConfig.SSMEnvVarConfig p)) ∧
    (∀ v, obj_dict.source = some "text" → obj_dict.value = some v →
      env_var_deserializer obj_dict =
        Except.ok (AbstractEnvVarConfig.TextEnvVarConfig v)) ∧
    (obj_dict.source = some "unset" →
      env_var_deserializer obj_dict = Except.ok AbstractEnvVarConfig.UnsetEnvVarConfig) ∧
    (∀ s, obj_dict.source = some s → s ≠ "ssm" → s ≠ "text" → s ≠ "unset" →
      env_var_deserializer obj_dict =
        Except.error (PyError.runtimeError "Invalid Source")) := by
  refine ⟨?_, ?_, ?_, ?_⟩
  · intro p hs hp
    rw [env_var_deserializer, hs, hp]
    rfl
  · intro v hs hv
    rw [env_var_deserializer, hs, hv]
    rfl
  · intro hs
    rw [env_var_deserializer, hs]
    rfl
  · intro s hs h1 h2 h3
    rw [env_var_deserializer, hs]
    simp only [EnvVarSource.value]
    rw [if_neg (by simpa using h1), if_neg (by simpa using h2), if_neg (by simpa using h3)]

/-- Claim C10, witness: the dict with source `ssm` and path `/param/db`
deserializes to an `SSMEnvVarConfig` carrying `/param/db`. -/
theorem env_var_deserializer_cases_witness :
    env_var_deserializer { source := some "ssm", path := some "/param/db", value := none } =
      Except.ok (AbstractEnvVarConfig.SSMEnvVarConfig "/param/db") :=
  (env_var_deserializer_cases
    { source := some "ssm", path := some "/param/db", value := none }).1 "/param/db" rfl rfl
